import Mathlib

/-!
# VelocityGL core — shallow embedding and verification

This file embeds, as pure Lean functions, the core data structures and
operations of the VelocityGL GPU resource / frame optimization layer:

* the buffer sub-allocator (`src/native/src/buffer/buffer_pool.c`):
  block lists, best-fit allocation, coalescing free, and the triple-buffered
  streaming ring allocator;
* the shader binary cache (`src/native/src/shader/shader_cache.c`):
  slot table, LRU eviction, disk-header validation;
* the draw-call batcher (`src/native/src/buffer/draw_batcher.c`):
  command buffer, run detection, execution counters;
* the resolution scaler (`src/native/src/optimize/resolution_scaler.c`):
  frame-time feedback and scale clamping.

GL calls, logging and locking are effect-free from the point of view of the
verified state, and are dropped; file and clock inputs are passed in as
explicit values.  C `size_t`/`int` values are modelled as `Nat`/`Int`
(the quantities involved are far below 2^64, so wraparound never occurs
on the inputs considered); C `float` values in the scaler are modelled as
`ℚ` (the comparisons and clamps at issue are exact in both arithmetics).
-/

namespace VelocityGL

-- ============================================================================
-- Buffer pool (buffer_pool.c / buffer_pool.h)
-- ============================================================================

/-- `BUFFER_ALIGNMENT` from `buffer_pool.h` (256, "GPU alignment"). -/
def BUFFER_ALIGNMENT : Nat := 256

/-- `alignSize` from `buffer_pool.c`:
`(size + alignment - 1) & ~(alignment - 1)`.  For the power-of-two alignment
used throughout (256) and sizes below 2^64, clearing the low bits of
`size + alignment - 1` is exactly subtracting its remainder mod `alignment`,
which is how it is written here. -/
def alignSize (size alignment : Nat) : Nat :=
  (size + alignment - 1) - (size + alignment - 1) % alignment

/-- `BufferBlock` from `buffer_pool.h`: one node of a pool's ordered block
list (the `prev`/`next` links are represented by adjacency in a `List`). -/
structure BufferBlock where
  offset : Nat
  size : Nat
  free : Bool
deriving Repr, DecidableEq

/-- `BufferPool` from `buffer_pool.h` (the fields the allocator mutates;
GL handles and mapping pointers are irrelevant to the block accounting). -/
structure BufferPool where
  totalSize : Nat
  usedSize : Nat
  freeSize : Nat
  blocks : List BufferBlock
  blockCount : Nat
  allocCount : Nat
  freeCount : Nat
deriving Repr, DecidableEq

/-- `BufferAllocation` from `buffer_pool.h` (accounting fields). -/
structure BufferAllocation where
  offset : Nat
  size : Nat
  alignedSize : Nat
deriving Repr, DecidableEq

/-- Pool initialization in `bufferPoolCreate`: one free block spanning the
whole region. -/
def bufferPoolCreate (size : Nat) : BufferPool :=
  { totalSize := size
    usedSize := 0
    freeSize := size
    blocks := [⟨0, size, true⟩]
    blockCount := 1
    allocCount := 0
    freeCount := 0 }

/-- The best-fit search loop of `bufferPoolAlloc`: walk the block list,
remember the smallest free block whose size is at least `alignedSize`
(together with its position), and stop early on a perfect fit
(`block->size == alignedSize`). -/
def findBestFitGo (alignedSize : Nat) :
    List BufferBlock → Nat → Option (Nat × BufferBlock) → Option (Nat × BufferBlock)
  | [], _, best => best
  | b :: rest, i, best =>
    if b.free = true ∧ alignedSize ≤ b.size then
      match best with
      | none =>
        if b.size = alignedSize then some (i, b)
        else findBestFitGo alignedSize rest (i + 1) (some (i, b))
      | some p =>
        if b.size < p.2.size then
          if b.size = alignedSize then some (i, b)
          else findBestFitGo alignedSize rest (i + 1) (some (i, b))
        else findBestFitGo alignedSize rest (i + 1) (some p)
    else findBestFitGo alignedSize rest (i + 1) best

/-- Best-fit search over the whole block list (returns the chosen block and
its position). -/
def findBestFit (blocks : List BufferBlock) (alignedSize : Nat) :
    Option (Nat × BufferBlock) :=
  findBestFitGo alignedSize blocks 0 none

/-- `bufferPoolAlloc` from `buffer_pool.c`: align the request, best-fit
search, split the chosen block when `bestBlock->size > alignedSize +
BUFFER_ALIGNMENT` (the remainder becomes a new free block inserted
immediately after), mark the chosen block used, update the counters and
return the allocation handle.  Returns `none` (the embedding of the C
`NULL` return) when the request is zero or no free block is large enough. -/
def bufferPoolAlloc (pool : BufferPool) (size : Nat) :
    Option BufferAllocation × BufferPool :=
  if size = 0 then (none, pool)
  else
    let alignedSize := alignSize size BUFFER_ALIGNMENT
    match findBestFit pool.blocks alignedSize with
    | none => (none, pool)
    | some (i, b) =>
      if alignedSize + BUFFER_ALIGNMENT < b.size then
        -- split: chosen block keeps `alignedSize`, remainder inserted after
        let blocks' := pool.blocks.take i ++
          ⟨b.offset, alignedSize, false⟩ ::
          ⟨b.offset + alignedSize, b.size - alignedSize, true⟩ ::
          pool.blocks.drop (i + 1)
        (some ⟨b.offset, size, alignedSize⟩,
         { pool with
            blocks := blocks'
            blockCount := pool.blockCount + 1
            usedSize := pool.usedSize + alignedSize
            freeSize := pool.freeSize - alignedSize
            allocCount := pool.allocCount + 1 })
      else
        let blocks' := pool.blocks.take i ++
          ⟨b.offset, b.size, false⟩ :: pool.blocks.drop (i + 1)
        (some ⟨b.offset, size, b.size⟩,
         { pool with
            blocks := blocks'
            usedSize := pool.usedSize + b.size
            freeSize := pool.freeSize - b.size
            allocCount := pool.allocCount + 1 })

/-- The block-list scan of `bufferPoolFree`: find the first block whose
offset matches, mark it free, coalesce with the next block first and with
the previous block second.  The previous block is the head of the current
two-element view, exactly as the C code reaches it through `block->prev`. -/
def freeScan (off : Nat) : List BufferBlock → List BufferBlock
  | [] => []
  | [b] =>
    if b.offset = off then [{ b with free := true }] else [b]
  | a :: b :: rest =>
    if a.offset = off then
      -- found at the head: no previous block, coalesce with next only
      if b.free = true then ⟨a.offset, a.size + b.size, true⟩ :: rest
      else { a with free := true } :: b :: rest
    else if b.offset = off then
      -- found with previous block `a`: coalesce next first, then previous
      match rest with
      | c :: rest2 =>
        if c.free = true then
          if a.free = true then ⟨a.offset, a.size + (b.size + c.size), true⟩ :: rest2
          else a :: ⟨b.offset, b.size + c.size, true⟩ :: rest2
        else
          if a.free = true then ⟨a.offset, a.size + b.size, true⟩ :: c :: rest2
          else a :: { b with free := true } :: c :: rest2
      | [] =>
        if a.free = true then [⟨a.offset, a.size + b.size, true⟩]
        else [a, { b with free := true }]
    else
      a :: freeScan off (b :: rest)

/-- `bufferPoolFree` from `buffer_pool.c`: locate the block by the
allocation's offset, mark it free, coalesce, and update the counters with
the found block's (pre-merge) size.  A handle whose offset matches no
block leaves the pool unchanged, as in the C loop running off the list. -/
def bufferPoolFree (pool : BufferPool) (alloc : BufferAllocation) : BufferPool :=
  match pool.blocks.find? (fun b => b.offset = alloc.offset) with
  | none => pool
  | some b =>
    { pool with
        blocks := freeScan alloc.offset pool.blocks
        usedSize := pool.usedSize - b.size
        freeSize := pool.freeSize + b.size
        freeCount := pool.freeCount + 1 }

/-- One client-visible mutating operation on a pool. -/
inductive PoolOp where
  | alloc (size : Nat)
  | free (offset : Nat)
deriving Repr, DecidableEq

/-- Apply one operation (an `alloc` call, or a `free` call with a handle
carrying the given offset). -/
def applyPoolOp (pool : BufferPool) : PoolOp → BufferPool
  | .alloc s => (bufferPoolAlloc pool s).2
  | .free off => bufferPoolFree pool ⟨off, 0, 0⟩

/-- A pool state reached from `bufferPoolCreate size` by a call sequence. -/
def runPoolOps (size : Nat) (ops : List PoolOp) : BufferPool :=
  ops.foldl applyPoolOp (bufferPoolCreate size)

/-- Sum of `block.size` over a block list. -/
def sumSizes (l : List BufferBlock) : Nat :=
  (l.map (·.size)).sum

/-- No two adjacent blocks are both free. -/
def noAdjacentFree (l : List BufferBlock) : Prop :=
  List.Chain' (fun a b => ¬(a.free = true ∧ b.free = true)) l

-- ----------------------------------------------------------------------------
-- Lemmas about the best-fit search
-- ----------------------------------------------------------------------------

/-- The search loop yields either its incoming accumulator or a free,
large-enough block of the scanned suffix, with its absolute position. -/
theorem findBestFitGo_mem (a : Nat) :
    ∀ (l : List BufferBlock) (i : Nat) (best : Option (Nat × BufferBlock))
      (r : Nat × BufferBlock),
      findBestFitGo a l i best = some r →
      best = some r ∨
        ∃ j, l[j]? = some r.2 ∧ r.1 = i + j ∧ r.2.free = true ∧ a ≤ r.2.size := by
  intro l
  induction l with
  | nil => intro i best r h; exact Or.inl h
  | cons b rest ih =>
    intro i best r h
    cases best with
    | none =>
      simp only [findBestFitGo] at h
      by_cases hc : b.free = true ∧ a ≤ b.size
      · rw [if_pos hc] at h
        by_cases he : b.size = a
        · rw [if_pos he] at h
          cases h
          exact Or.inr ⟨0, by simp, by simp, hc.1, hc.2⟩
        · rw [if_neg he] at h
          rcases ih (i + 1) (some (i, b)) r h with h1 | ⟨j, hj, hij, hf, hs⟩
          · cases h1
            exact Or.inr ⟨0, by simp, by simp, hc.1, hc.2⟩
          · exact Or.inr ⟨j + 1, by simpa using hj, by omega, hf, hs⟩
      · rw [if_neg hc] at h
        rcases ih (i + 1) none r h with h1 | ⟨j, hj, hij, hf, hs⟩
        · exact Or.inl h1
        · exact Or.inr ⟨j + 1, by simpa using hj, by omega, hf, hs⟩
    | some p =>
      simp only [findBestFitGo] at h
      by_cases hc : b.free = true ∧ a ≤ b.size
      · rw [if_pos hc] at h
        by_cases hlt : b.size < p.2.size
        · rw [if_pos hlt] at h
          by_cases he : b.size = a
          · rw [if_pos he] at h
            cases h
            exact Or.inr ⟨0, by simp, by simp, hc.1, hc.2⟩
          · rw [if_neg he] at h
            rcases ih (i + 1) (some (i, b)) r h with h1 | ⟨j, hj, hij, hf, hs⟩
            · cases h1
              exact Or.inr ⟨0, by simp, by simp, hc.1, hc.2⟩
            · exact Or.inr ⟨j + 1, by simpa using hj, by omega, hf, hs⟩
        · rw [if_neg hlt] at h
          rcases ih (i + 1) (some p) r h with h1 | ⟨j, hj, hij, hf, hs⟩
          · exact Or.inl h1
          · exact Or.inr ⟨j + 1, by simpa using hj, by omega, hf, hs⟩
      · rw [if_neg hc] at h
        rcases ih (i + 1) (some p) r h with h1 | ⟨j, hj, hij, hf, hs⟩
        · exact Or.inl h1
        · exact Or.inr ⟨j + 1, by simpa using hj, by omega, hf, hs⟩

/-- Best-fit minimality: the chosen block's size is at most the size of any
free block of the scanned suffix that satisfies the request, and at most
the incoming accumulator's. -/
theorem findBestFitGo_min (a : Nat) :
    ∀ (l : List BufferBlock) (i : Nat) (best : Option (Nat × BufferBlock))
      (r : Nat × BufferBlock),
      (∀ p, best = some p → a ≤ p.2.size) →
      findBestFitGo a l i best = some r →
      (∀ c ∈ l, c.free = true → a ≤ c.size → r.2.size ≤ c.size) ∧
        (∀ p, best = some p → r.2.size ≤ p.2.size) ∧ a ≤ r.2.size := by
  intro l
  induction l with
  | nil =>
    intro i best r hbest h
    refine ⟨by simp, ?_, hbest r h⟩
    intro p hp
    rw [hp] at h
    cases h
    exact le_refl _
  | cons b rest ih =>
    intro i best r hbest h
    cases best with
    | none =>
      simp only [findBestFitGo] at h
      by_cases hc : b.free = true ∧ a ≤ b.size
      · rw [if_pos hc] at h
        by_cases he : b.size = a
        · rw [if_pos he] at h
          cases h
          refine ⟨?_, by simp, by simpa using hc.2⟩
          intro c _ _ hcs
          simp only
          omega
        · rw [if_neg he] at h
          have hb' : ∀ p, some (i, b) = some p → a ≤ p.2.size := by
            intro p hp; cases hp; exact hc.2
          obtain ⟨h1, h2, h3⟩ := ih (i + 1) (some (i, b)) r hb' h
          refine ⟨?_, by simp, h3⟩
          intro c hcmem hcf hcs
          rcases List.mem_cons.mp hcmem with hceq | hmem
          · rw [hceq]
            exact h2 (i, b) rfl
          · exact h1 c hmem hcf hcs
      · rw [if_neg hc] at h
        obtain ⟨h1, h2, h3⟩ := ih (i + 1) none r hbest h
        refine ⟨?_, h2, h3⟩
        intro c hcmem hcf hcs
        rcases List.mem_cons.mp hcmem with rfl | hmem
        · exact absurd ⟨hcf, hcs⟩ hc
        · exact h1 c hmem hcf hcs
    | some q =>
      have hq : a ≤ q.2.size := hbest q rfl
      simp only [findBestFitGo] at h
      by_cases hc : b.free = true ∧ a ≤ b.size
      · rw [if_pos hc] at h
        by_cases hlt : b.size < q.2.size
        · rw [if_pos hlt] at h
          by_cases he : b.size = a
          · rw [if_pos he] at h
            cases h
            refine ⟨?_, ?_, by simpa using hc.2⟩
            · intro c _ _ hcs
              simp only
              omega
            · intro p hp
              cases hp
              simp only
              omega
          · rw [if_neg he] at h
            have hb' : ∀ p, some (i, b) = some p → a ≤ p.2.size := by
              intro p hp; cases hp; exact hc.2
            obtain ⟨h1, h2, h3⟩ := ih (i + 1) (some (i, b)) r hb' h
            have hrb : r.2.size ≤ b.size := h2 (i, b) rfl
            refine ⟨?_, ?_, h3⟩
            · intro c hcmem hcf hcs
              rcases List.mem_cons.mp hcmem with hceq | hmem
              · rw [hceq]
                exact hrb
              · exact h1 c hmem hcf hcs
            · intro p hp
              cases hp
              omega
        · rw [if_neg hlt] at h
          obtain ⟨h1, h2, h3⟩ := ih (i + 1) (some q) r hbest h
          have hrq : r.2.size ≤ q.2.size := h2 q rfl
          refine ⟨?_, ?_, h3⟩
          · intro c hcmem hcf hcs
            rcases List.mem_cons.mp hcmem with rfl | hmem
            · omega
            · exact h1 c hmem hcf hcs
          · intro p hp
            cases hp
            exact hrq
      · rw [if_neg hc] at h
        obtain ⟨h1, h2, h3⟩ := ih (i + 1) (some q) r hbest h
        refine ⟨?_, h2, h3⟩
        intro c hcmem hcf hcs
        rcases List.mem_cons.mp hcmem with rfl | hmem
        · exact absurd ⟨hcf, hcs⟩ hc
        · exact h1 c hmem hcf hcs

/-- When no free block is large enough, the search loop returns its
accumulator unchanged. -/
theorem findBestFitGo_of_no_fit (a : Nat) :
    ∀ (l : List BufferBlock) (i : Nat) (best : Option (Nat × BufferBlock)),
      (∀ c ∈ l, ¬(c.free = true ∧ a ≤ c.size)) →
      findBestFitGo a l i best = best := by
  intro l
  induction l with
  | nil => intro i best _; rfl
  | cons b rest ih =>
    intro i best hno
    simp only [findBestFitGo]
    rw [if_neg (hno b (List.mem_cons_self b rest))]
    exact ih (i + 1) best (fun c hc => hno c (List.mem_cons_of_mem b hc))

/-- The block chosen by `findBestFit` is at the returned position of the
list, is free, and satisfies the aligned request. -/
theorem findBestFit_spec (blocks : List BufferBlock) (a : Nat)
    (i : Nat) (b : BufferBlock) (h : findBestFit blocks a = some (i, b)) :
    blocks[i]? = some b ∧ b.free = true ∧ a ≤ b.size := by
  rcases findBestFitGo_mem a blocks 0 none (i, b) h with h1 | ⟨j, hj, hij, hf, hs⟩
  · exact absurd h1 (by simp)
  · simp only at hij hf hs
    refine ⟨?_, hf, hs⟩
    rw [show i = j by omega]
    exact hj

-- ----------------------------------------------------------------------------
-- Sum conservation
-- ----------------------------------------------------------------------------

theorem sumSizes_append (l1 l2 : List BufferBlock) :
    sumSizes (l1 ++ l2) = sumSizes l1 + sumSizes l2 := by
  simp [sumSizes]

/-- Splitting the list at an existing index. -/
theorem blocks_eq_take_cons_drop (l : List BufferBlock) (i : Nat)
    (b : BufferBlock) (h : l[i]? = some b) :
    l = l.take i ++ b :: l.drop (i + 1) := by
  have hi : i < l.length := by
    by_contra hlen
    rw [List.getElem?_eq_none (by omega)] at h
    cases h
  have hb : l[i] = b := by
    have := List.getElem?_eq_getElem hi
    rw [this] at h
    cases h
    rfl
  conv_lhs => rw [← List.take_append_drop i l]
  rw [List.drop_eq_getElem_cons hi, hb]

/-- `bufferPoolAlloc` preserves the sum of block sizes. -/
theorem bufferPoolAlloc_sumSizes (pool : BufferPool) (s : Nat) :
    sumSizes (bufferPoolAlloc pool s).2.blocks = sumSizes pool.blocks := by
  by_cases hz : s = 0
  · simp [bufferPoolAlloc, hz]
  · cases hfind : findBestFit pool.blocks (alignSize s BUFFER_ALIGNMENT) with
    | none => simp [bufferPoolAlloc, hz, hfind]
    | some r =>
      obtain ⟨i, b⟩ := r
      obtain ⟨hib, hfree, hsize⟩ := findBestFit_spec _ _ _ _ hfind
      have hsplit := blocks_eq_take_cons_drop pool.blocks i b hib
      simp only [bufferPoolAlloc, hz, if_false, hfind]
      by_cases hbig : alignSize s BUFFER_ALIGNMENT + BUFFER_ALIGNMENT < b.size
      · rw [if_pos hbig]
        simp only
        conv_rhs => rw [hsplit]
        simp only [sumSizes, List.map_append, List.sum_append, List.map_cons,
          List.sum_cons]
        omega
      · rw [if_neg hbig]
        simp only
        conv_rhs => rw [hsplit]
        simp only [sumSizes, List.map_append, List.sum_append, List.map_cons,
          List.sum_cons]

/-- `freeScan` preserves the sum of block sizes. -/
theorem freeScan_sumSizes (off : Nat) :
    ∀ l : List BufferBlock, sumSizes (freeScan off l) = sumSizes l := by
  intro l
  induction l with
  | nil => rfl
  | cons a tail ih =>
    match tail, ih with
    | [], _ =>
      simp only [freeScan]
      by_cases h : a.offset = off
      · rw [if_pos h]; rfl
      · rw [if_neg h]
    | b :: rest, ih =>
      simp only [freeScan]
      by_cases ha : a.offset = off
      · rw [if_pos ha]
        by_cases hbf : b.free = true
        · rw [if_pos hbf]
          simp only [sumSizes, List.map_cons, List.sum_cons]
          omega
        · rw [if_neg hbf]
          simp only [sumSizes, List.map_cons, List.sum_cons]
      · rw [if_neg ha]
        by_cases hb : b.offset = off
        · rw [if_pos hb]
          match rest with
          | [] =>
            dsimp only
            by_cases haf : a.free = true
            · rw [if_pos haf]
              simp only [sumSizes, List.map_cons, List.map_nil,
                List.sum_cons, List.sum_nil]
              omega
            · rw [if_neg haf]
              simp only [sumSizes, List.map_cons, List.map_nil,
                List.sum_cons, List.sum_nil]
          | c :: rest2 =>
            dsimp only
            by_cases hcf : c.free = true
            · rw [if_pos hcf]
              by_cases haf : a.free = true
              · rw [if_pos haf]
                simp only [sumSizes, List.map_cons, List.sum_cons]
                omega
              · rw [if_neg haf]
                simp only [sumSizes, List.map_cons, List.sum_cons]
                omega
            · rw [if_neg hcf]
              by_cases haf : a.free = true
              · rw [if_pos haf]
                simp only [sumSizes, List.map_cons, List.sum_cons]
                omega
              · rw [if_neg haf]
                simp only [sumSizes, List.map_cons, List.sum_cons]
        · rw [if_neg hb]
          simp only [sumSizes, List.map_cons, List.sum_cons] at ih ⊢
          omega

/-- `bufferPoolFree` preserves the sum of block sizes. -/
theorem bufferPoolFree_sumSizes (pool : BufferPool) (alloc : BufferAllocation) :
    sumSizes (bufferPoolFree pool alloc).blocks = sumSizes pool.blocks := by
  unfold bufferPoolFree
  cases hfind : pool.blocks.find? (fun b => b.offset = alloc.offset) with
  | none => rfl
  | some b => exact freeScan_sumSizes alloc.offset pool.blocks

/-- Every pool operation preserves the sum of block sizes. -/
theorem applyPoolOp_sumSizes (pool : BufferPool) (op : PoolOp) :
    sumSizes (applyPoolOp pool op).blocks = sumSizes pool.blocks := by
  cases op with
  | alloc s => exact bufferPoolAlloc_sumSizes pool s
  | free off => exact bufferPoolFree_sumSizes pool ⟨off, 0, 0⟩

theorem foldl_sumSizes (ops : List PoolOp) :
    ∀ pool : BufferPool,
      sumSizes (ops.foldl applyPoolOp pool).blocks = sumSizes pool.blocks := by
  induction ops with
  | nil => intro pool; rfl
  | cons op rest ih =>
    intro pool
    rw [List.foldl_cons, ih (applyPoolOp pool op), applyPoolOp_sumSizes]

-- ----------------------------------------------------------------------------
-- No adjacent free blocks
-- ----------------------------------------------------------------------------

/-- `bufferPoolAlloc` preserves the no-adjacent-free-blocks invariant: the
chosen block is free (so, by the invariant, its neighbours are not), and
the blocks it is replaced with are a used block possibly followed by the
free remainder. -/
theorem bufferPoolAlloc_noAdjacentFree (pool : BufferPool) (s : Nat)
    (h : noAdjacentFree pool.blocks) :
    noAdjacentFree (bufferPoolAlloc pool s).2.blocks := by
  by_cases hz : s = 0
  · simpa [bufferPoolAlloc, hz] using h
  · cases hfind : findBestFit pool.blocks (alignSize s BUFFER_ALIGNMENT) with
    | none => simpa [bufferPoolAlloc, hz, hfind] using h
    | some r =>
      obtain ⟨i, b⟩ := r
      obtain ⟨hib, hfree, hsize⟩ := findBestFit_spec _ _ _ _ hfind
      have hsplit := blocks_eq_take_cons_drop pool.blocks i b hib
      rw [hsplit] at h
      rw [noAdjacentFree, List.chain'_append] at h
      obtain ⟨htake, hcons, hlink⟩ := h
      rw [List.chain'_cons'] at hcons
      obtain ⟨hbd, hdrop⟩ := hcons
      simp only [bufferPoolAlloc, hz, if_false, hfind]
      by_cases hbig : alignSize s BUFFER_ALIGNMENT + BUFFER_ALIGNMENT < b.size
      · rw [if_pos hbig]
        simp only [noAdjacentFree]
        rw [List.chain'_append]
        refine ⟨htake, ?_, ?_⟩
        · rw [List.chain'_cons]
          refine ⟨by simp, ?_⟩
          rw [List.chain'_cons']
          refine ⟨?_, hdrop⟩
          intro y hy
          have := hbd y hy
          simp only at this ⊢
          intro hcontra
          exact this ⟨hfree, hcontra.2⟩
        · intro x hx y hy
          simp only [List.head?_cons, Option.mem_def, Option.some.injEq] at hy
          subst hy
          simp
      · rw [if_neg hbig]
        simp only [noAdjacentFree]
        rw [List.chain'_append]
        refine ⟨htake, ?_, ?_⟩
        · rw [List.chain'_cons']
          refine ⟨?_, hdrop⟩
          intro y hy
          simp only
          intro hcontra
          cases hcontra.1
        · intro x hx y hy
          simp only [List.head?_cons, Option.mem_def, Option.some.injEq] at hy
          subst hy
          simp

/-- If the head of the list does not carry the freed offset, `freeScan`
keeps a head block with the same free flag. -/
theorem freeScan_head_free (off : Nat) :
    ∀ (l : List BufferBlock) (b : BufferBlock), l.head? = some b →
      b.offset ≠ off →
      ∃ b2, (freeScan off l).head? = some b2 ∧ b2.free = b.free := by
  intro l
  match l with
  | [] => intro b hb; cases hb
  | [b0] =>
    intro b hb hne
    simp only [List.head?_cons, Option.some.injEq] at hb
    subst hb
    simp only [freeScan]
    rw [if_neg hne]
    exact ⟨b0, rfl, rfl⟩
  | a :: b0 :: rest =>
    intro b hb hne
    simp only [List.head?_cons, Option.some.injEq] at hb
    subst hb
    simp only [freeScan]
    rw [if_neg hne]
    by_cases hb0 : b0.offset = off
    · rw [if_pos hb0]
      match rest with
      | [] =>
        dsimp only
        by_cases haf : a.free = true
        · rw [if_pos haf]
          exact ⟨_, rfl, by simp [haf]⟩
        · rw [if_neg haf]
          exact ⟨a, rfl, rfl⟩
      | c :: rest2 =>
        dsimp only
        by_cases hcf : c.free = true
        · rw [if_pos hcf]
          by_cases haf : a.free = true
          · rw [if_pos haf]
            exact ⟨_, rfl, by simp [haf]⟩
          · rw [if_neg haf]
            exact ⟨a, rfl, rfl⟩
        · rw [if_neg hcf]
          by_cases haf : a.free = true
          · rw [if_pos haf]
            exact ⟨_, rfl, by simp [haf]⟩
          · rw [if_neg haf]
            exact ⟨a, rfl, rfl⟩
    · rw [if_neg hb0]
      exact ⟨a, rfl, rfl⟩

/-- `freeScan` preserves the no-adjacent-free-blocks invariant: the freed
block is coalesced with a free right neighbour and then a free left
neighbour, and by the incoming invariant the blocks beyond those
neighbours are not free. -/
theorem freeScan_noAdjacentFree (off : Nat) :
    ∀ l : List BufferBlock, noAdjacentFree l → noAdjacentFree (freeScan off l) := by
  intro l
  induction l with
  | nil => intro h; exact h
  | cons a tail ih =>
    match tail, ih with
    | [], _ =>
      intro h
      simp only [freeScan]
      by_cases ha : a.offset = off
      · rw [if_pos ha]; exact List.chain'_singleton _
      · rw [if_neg ha]; exact h
    | b :: rest, ih =>
      intro h
      rw [noAdjacentFree, List.chain'_cons] at h
      obtain ⟨hab, hbrest⟩ := h
      simp only [freeScan]
      by_cases ha : a.offset = off
      · rw [if_pos ha]
        by_cases hbf : b.free = true
        · rw [if_pos hbf]
          rw [noAdjacentFree, List.chain'_cons']
          rw [List.chain'_cons'] at hbrest
          refine ⟨?_, hbrest.2⟩
          intro y hy
          have := hbrest.1 y hy
          simp only at this ⊢
          intro hcontra
          exact this ⟨hbf, hcontra.2⟩
        · rw [if_neg hbf]
          rw [noAdjacentFree, List.chain'_cons]
          exact ⟨fun hcontra => hbf hcontra.2, hbrest⟩
      · rw [if_neg ha]
        by_cases hb : b.offset = off
        · rw [if_pos hb]
          match rest, hbrest with
          | [], _ =>
            dsimp only
            by_cases haf : a.free = true
            · rw [if_pos haf]; exact List.chain'_singleton _
            · rw [if_neg haf]
              rw [noAdjacentFree, List.chain'_cons]
              exact ⟨fun hcontra => haf hcontra.1, List.chain'_singleton _⟩
          | c :: rest2, hbrest =>
            rw [List.chain'_cons] at hbrest
            obtain ⟨hbc, hcrest⟩ := hbrest
            rw [List.chain'_cons'] at hcrest
            obtain ⟨hcy, hrest2⟩ := hcrest
            dsimp only
            by_cases hcf : c.free = true
            · rw [if_pos hcf]
              by_cases haf : a.free = true
              · rw [if_pos haf]
                rw [noAdjacentFree, List.chain'_cons']
                refine ⟨?_, hrest2⟩
                intro y hy
                have := hcy y hy
                simp only at this ⊢
                intro hcontra
                exact this ⟨hcf, hcontra.2⟩
              · rw [if_neg haf]
                rw [noAdjacentFree, List.chain'_cons']
                refine ⟨?_, ?_⟩
                · intro y hy
                  simp only [List.head?_cons, Option.mem_def,
                    Option.some.injEq] at hy
                  subst hy
                  exact fun hcontra => haf hcontra.1
                · rw [List.chain'_cons']
                  refine ⟨?_, hrest2⟩
                  intro y hy
                  have := hcy y hy
                  simp only at this ⊢
                  intro hcontra
                  exact this ⟨hcf, hcontra.2⟩
            · rw [if_neg hcf]
              by_cases haf : a.free = true
              · rw [if_pos haf]
                rw [noAdjacentFree, List.chain'_cons]
                refine ⟨fun hcontra => hcf hcontra.2, ?_⟩
                rw [List.chain'_cons']
                exact ⟨hcy, hrest2⟩
              · rw [if_neg haf]
                rw [noAdjacentFree, List.chain'_cons]
                refine ⟨fun hcontra => haf hcontra.1, ?_⟩
                rw [List.chain'_cons]
                refine ⟨fun hcontra => hcf hcontra.2, ?_⟩
                rw [List.chain'_cons']
                exact ⟨hcy, hrest2⟩
        · rw [if_neg hb]
          have hchain := ih hbrest
          rw [noAdjacentFree, List.chain'_cons']
          refine ⟨?_, hchain⟩
          intro y hy
          obtain ⟨b2, hb2, hb2f⟩ :=
            freeScan_head_free off (b :: rest) b rfl hb
          rw [hb2] at hy
          simp only [Option.mem_def, Option.some.injEq] at hy
          subst hy
          rw [List.chain'_cons'] at hbrest
          intro hcontra
          rw [hb2f] at hcontra
          exact hab ⟨hcontra.1, hcontra.2⟩

/-- `bufferPoolFree` preserves the no-adjacent-free-blocks invariant. -/
theorem bufferPoolFree_noAdjacentFree (pool : BufferPool)
    (alloc : BufferAllocation) (h : noAdjacentFree pool.blocks) :
    noAdjacentFree (bufferPoolFree pool alloc).blocks := by
  unfold bufferPoolFree
  cases hfind : pool.blocks.find? (fun b => b.offset = alloc.offset) with
  | none => exact h
  | some b => exact freeScan_noAdjacentFree alloc.offset pool.blocks h

/-- Every pool operation preserves the no-adjacent-free-blocks invariant. -/
theorem applyPoolOp_noAdjacentFree (pool : BufferPool) (op : PoolOp)
    (h : noAdjacentFree pool.blocks) :
    noAdjacentFree (applyPoolOp pool op).blocks := by
  cases op with
  | alloc s => exact bufferPoolAlloc_noAdjacentFree pool s h
  | free off => exact bufferPoolFree_noAdjacentFree pool ⟨off, 0, 0⟩ h

theorem foldl_noAdjacentFree (ops : List PoolOp) :
    ∀ pool : BufferPool, noAdjacentFree pool.blocks →
      noAdjacentFree ((ops.foldl applyPoolOp pool)).blocks := by
  induction ops with
  | nil => intro pool h; exact h
  | cons op rest ih =>
    intro pool h
    rw [List.foldl_cons]
    exact ih (applyPoolOp pool op) (applyPoolOp_noAdjacentFree pool op h)

/-- Neither allocation nor free changes `totalSize`. -/
theorem applyPoolOp_totalSize (pool : BufferPool) (op : PoolOp) :
    (applyPoolOp pool op).totalSize = pool.totalSize := by
  cases op with
  | alloc s =>
    show (bufferPoolAlloc pool s).2.totalSize = pool.totalSize
    by_cases hz : s = 0
    · simp [bufferPoolAlloc, hz]
    · cases hfind : findBestFit pool.blocks (alignSize s BUFFER_ALIGNMENT) with
      | none => simp [bufferPoolAlloc, hz, hfind]
      | some r =>
        obtain ⟨i, b⟩ := r
        simp only [bufferPoolAlloc, hz, if_false, hfind]
        split <;> rfl
  | free off =>
    show (bufferPoolFree pool ⟨off, 0, 0⟩).totalSize = pool.totalSize
    unfold bufferPoolFree
    cases pool.blocks.find? (fun b => b.offset = (⟨off, 0, 0⟩ : BufferAllocation).offset) <;> rfl

theorem foldl_totalSize (ops : List PoolOp) :
    ∀ pool : BufferPool,
      (ops.foldl applyPoolOp pool).totalSize = pool.totalSize := by
  induction ops with
  | nil => intro pool; rfl
  | cons op rest ih =>
    intro pool
    rw [List.foldl_cons, ih (applyPoolOp pool op), applyPoolOp_totalSize]

-- ============================================================================
-- Claim theorems: buffer pool
-- ============================================================================

/-- C1 (Pool conservation): for every pool and every sequence of
`bufferPoolAlloc`/`bufferPoolFree` calls on it, the sum of `block.size`
over all blocks in the pool's block list equals `pool.totalSize` after
each operation completes. -/
theorem pool_conservation (size : Nat) (ops : List PoolOp) :
    sumSizes (runPoolOps size ops).blocks = (runPoolOps size ops).totalSize := by
  unfold runPoolOps
  rw [foldl_sumSizes, foldl_totalSize]
  simp [bufferPoolCreate, sumSizes]

/-- C3 (No adjacent free fragmentation): in every pool state reachable by
`bufferPoolAlloc`/`bufferPoolFree` calls — in particular after any
`bufferPoolFree` completes — no two blocks that are both free are adjacent
in the pool's block list; the free path marks the owning block free and
coalesces with the next block first and the previous block second
(`freeScan`), which is what maintains the invariant. -/
theorem free_no_adjacent_free (size : Nat) (ops : List PoolOp) :
    noAdjacentFree (runPoolOps size ops).blocks := by
  unfold runPoolOps
  apply foldl_noAdjacentFree
  simp [bufferPoolCreate, noAdjacentFree]

-- ----------------------------------------------------------------------------
-- C2: best-fit allocation
-- ----------------------------------------------------------------------------

/-- Example scenario for C2: a 1,048,576-byte pool. -/
def c2Run1 : Option BufferAllocation × BufferPool :=
  bufferPoolAlloc (bufferPoolCreate 1048576) 300000

def c2Run2 : Option BufferAllocation × BufferPool :=
  bufferPoolAlloc c2Run1.2 300000

/-- Free the first allocation's handle, then allocate 300000 again. -/
def c2Run3 : Option BufferAllocation × BufferPool :=
  bufferPoolAlloc (bufferPoolFree c2Run2.2 (c2Run1.1.getD ⟨0, 0, 0⟩)) 300000

/-- C2 (best-fit allocation): `bufferPoolAlloc`
(1) aligns the requested size up to 256 bytes
    (`alignSize` yields the least multiple of 256 that is ≥ the request);
(2) returns `none` without changing the pool when no free block is large
    enough for the aligned size;
(3) selects a free block with at least the aligned size whose size is
    smallest among such blocks, and an exact-size block when one exists
    (the search stops early on an exact match);
(4) splits the chosen block exactly when its size exceeds the aligned size
    plus 256, the remainder becoming a new free block inserted immediately
    after, and otherwise hands out the whole block;
(5) on the 1,048,576-byte pool, `alloc 300000`, `alloc 300000`,
    `free first`, `alloc 300000` makes the third alloc reuse the freed
    block's offset 0. -/
theorem bufferPoolAlloc_best_fit :
    (∀ s : Nat, alignSize s BUFFER_ALIGNMENT % 256 = 0 ∧
      s ≤ alignSize s BUFFER_ALIGNMENT ∧
      alignSize s BUFFER_ALIGNMENT < s + 256) ∧
    (∀ (pool : BufferPool) (s : Nat),
      (∀ c ∈ pool.blocks, ¬(c.free = true ∧ alignSize s BUFFER_ALIGNMENT ≤ c.size)) →
      (bufferPoolAlloc pool s).1 = none ∧ (bufferPoolAlloc pool s).2 = pool) ∧
    (∀ (blocks : List BufferBlock) (a i : Nat) (b : BufferBlock),
      findBestFit blocks a = some (i, b) →
      blocks[i]? = some b ∧ b.free = true ∧ a ≤ b.size ∧
      (∀ c ∈ blocks, c.free = true → a ≤ c.size → b.size ≤ c.size) ∧
      ((∃ c ∈ blocks, c.free = true ∧ c.size = a) → b.size = a)) ∧
    (∀ (pool : BufferPool) (s i : Nat) (b : BufferBlock), s ≠ 0 →
      findBestFit pool.blocks (alignSize s BUFFER_ALIGNMENT) = some (i, b) →
      (alignSize s BUFFER_ALIGNMENT + BUFFER_ALIGNMENT < b.size →
        (bufferPoolAlloc pool s).1 =
          some ⟨b.offset, s, alignSize s BUFFER_ALIGNMENT⟩ ∧
        (bufferPoolAlloc pool s).2.blocks =
          pool.blocks.take i ++
            ⟨b.offset, alignSize s BUFFER_ALIGNMENT, false⟩ ::
            ⟨b.offset + alignSize s BUFFER_ALIGNMENT,
              b.size - alignSize s BUFFER_ALIGNMENT, true⟩ ::
            pool.blocks.drop (i + 1)) ∧
      (¬alignSize s BUFFER_ALIGNMENT + BUFFER_ALIGNMENT < b.size →
        (bufferPoolAlloc pool s).1 = some ⟨b.offset, s, b.size⟩ ∧
        (bufferPoolAlloc pool s).2.blocks =
          pool.blocks.take i ++
            ⟨b.offset, b.size, false⟩ :: pool.blocks.drop (i + 1))) ∧
    (c2Run1.1 = some ⟨0, 300000, 300032⟩ ∧
      c2Run3.1 = some ⟨0, 300000, 300032⟩) := by
  refine ⟨?_, ?_, ?_, ?_, ?_, ?_⟩
  · intro s
    unfold alignSize BUFFER_ALIGNMENT
    omega
  · intro pool s hno
    by_cases hz : s = 0
    · simp [bufferPoolAlloc, hz]
    · have hnone : findBestFit pool.blocks (alignSize s BUFFER_ALIGNMENT) = none :=
        findBestFitGo_of_no_fit _ pool.blocks 0 none hno
      simp [bufferPoolAlloc, hz, hnone]
  · intro blocks a i b hfind
    obtain ⟨hib, hfree, hsize⟩ := findBestFit_spec blocks a i b hfind
    have hmin := findBestFitGo_min a blocks 0 none (i, b) (by intro p hp; cases hp) hfind
    refine ⟨hib, hfree, hsize, hmin.1, ?_⟩
    rintro ⟨c, hcmem, hcf, hcs⟩
    have h1 : b.size ≤ c.size := hmin.1 c hcmem hcf (by omega)
    omega
  · intro pool s i b hz hfind
    constructor
    · intro hbig
      simp only [bufferPoolAlloc, hz, if_false, hfind, if_pos hbig]
      exact ⟨trivial, trivial⟩
    · intro hbig
      simp only [bufferPoolAlloc, hz, if_false, hfind, if_neg hbig]
      exact ⟨trivial, trivial⟩
  · decide
  · decide

/-- Witness for C2: the hypothesis-bearing conjuncts applied at concrete
inputs.  A full 256-byte pool rejects a 512-byte request; on the
1,048,576-byte pool, the best-fit search finds the initial free block and
allocation splits it, returning offset 0 with aligned size 300032. -/
theorem bufferPoolAlloc_best_fit_witness :
    (bufferPoolAlloc (bufferPoolCreate 256) 512).1 = none ∧
    ((bufferPoolCreate 1048576).blocks[0]? = some ⟨0, 1048576, true⟩ ∧
      (⟨0, 1048576, true⟩ : BufferBlock).free = true) ∧
    (bufferPoolAlloc (bufferPoolCreate 1048576) 300000).1 =
      some ⟨0, 300000, 300032⟩ :=
  ⟨(bufferPoolAlloc_best_fit.2.1 (bufferPoolCreate 256) 512 (by decide)).1,
   ⟨(bufferPoolAlloc_best_fit.2.2.1 (bufferPoolCreate 1048576).blocks 300032 0
      ⟨0, 1048576, true⟩ (by decide)).1,
    (bufferPoolAlloc_best_fit.2.2.1 (bufferPoolCreate 1048576).blocks 300032 0
      ⟨0, 1048576, true⟩ (by decide)).2.1⟩,
   ((bufferPoolAlloc_best_fit.2.2.2.1 (bufferPoolCreate 1048576) 300000 0
      ⟨0, 1048576, true⟩ (by decide) (by decide)).1 (by decide)).1⟩

-- ============================================================================
-- Streaming ring allocator (buffer_pool.c, bufferStream*)
-- ============================================================================

/-- The streaming-buffer fields of `BufferManagerContext`
(`buffer_pool.h`).  `streamFences` holds the three `GLsync` slots; a fence
handle is modelled by the number of the frame whose `bufferStreamEndFrame`
recorded it (the C stores an opaque driver handle).  `frameNumber` is a
ghost counter of completed frames, added for specification only: the C
keeps just `currentFrame`, which always equals `frameNumber % 3`. -/
structure StreamState where
  streamBufferSize : Nat
  streamOffset : Nat
  currentFrame : Nat
  streamFences : List (Option Nat)
  frameNumber : Nat
deriving Repr, DecidableEq

/-- Stream setup in `bufferManagerInit`: offset 0, frame 0, no fences. -/
def streamInit (streamSize : Nat) : StreamState :=
  { streamBufferSize := streamSize
    streamOffset := 0
    currentFrame := 0
    streamFences := [none, none, none]
    frameNumber := 0 }

/-- `bufferStreamBeginFrame` from `buffer_pool.c`: examine the fence at
index `(currentFrame + 1) % 3`, wait on it if present (bounded by the
1-second `glClientWaitSync` timeout) and delete it, then reset the offset
to this frame's slice, `currentFrame * (streamBufferSize / 3)`.  Returns
the examined fence index, the fence waited on (if any), and the new
state. -/
def bufferStreamBeginFrame (s : StreamState) : Nat × Option Nat × StreamState :=
  let fenceIndex := (s.currentFrame + 1) % 3
  let waited := (s.streamFences[fenceIndex]?).getD none
  let frameSize := s.streamBufferSize / 3
  (fenceIndex, waited,
   { s with
      streamFences := s.streamFences.set fenceIndex none
      streamOffset := s.currentFrame * frameSize })

/-- `bufferStreamEndFrame` from `buffer_pool.c`: record a fence in the
slot of the frame just written, then advance `currentFrame` mod 3. -/
def bufferStreamEndFrame (s : StreamState) : StreamState :=
  { s with
      streamFences := s.streamFences.set s.currentFrame (some s.frameNumber)
      currentFrame := (s.currentFrame + 1) % 3
      frameNumber := s.frameNumber + 1 }

/-- `bufferStreamAlloc` from `buffer_pool.c`: bump-allocate the aligned
size within the current frame's slice
`[currentFrame * frameSize, (currentFrame + 1) * frameSize)`; on overflow
return offset 0 and leave the state unchanged (the C logs a warning and
returns 0). -/
def bufferStreamAlloc (s : StreamState) (size : Nat) : Nat × StreamState :=
  let alignedSize := alignSize size BUFFER_ALIGNMENT
  let frameSize := s.streamBufferSize / 3
  let frameStart := s.currentFrame * frameSize
  let frameEnd := frameStart + frameSize
  if frameEnd < s.streamOffset + alignedSize then (0, s)
  else (s.streamOffset, { s with streamOffset := s.streamOffset + alignedSize })

/-- State after `n` complete frames (each a `beginFrame`/`endFrame` pair;
`bufferStreamAlloc` calls in between do not affect the fence slots or the
frame counters, and `beginFrame` overwrites `streamOffset`). -/
def runFrames (streamSize : Nat) : Nat → StreamState
  | 0 => streamInit streamSize
  | n + 1 => bufferStreamEndFrame (bufferStreamBeginFrame (runFrames streamSize n)).2.2

/-- The fence found in slot `j` after `n` complete frames: the two most
recent frames hold fences, the third slot (the one about to be reused)
has already been waited on and cleared. -/
def fenceVal (n j : Nat) : Option Nat :=
  if 1 ≤ n ∧ j = (n - 1) % 3 then some (n - 1)
  else if 2 ≤ n ∧ j = (n - 2) % 3 then some (n - 2)
  else none

/-- Invariant of the frame loop: `currentFrame` tracks the frame number
mod 3 and the fence slots hold exactly the fences of the last two
frames. -/
theorem runFrames_inv (streamSize : Nat) :
    ∀ n : Nat,
      (runFrames streamSize n).currentFrame = n % 3 ∧
      (runFrames streamSize n).frameNumber = n ∧
      (runFrames streamSize n).streamBufferSize = streamSize ∧
      (runFrames streamSize n).streamFences =
        [fenceVal n 0, fenceVal n 1, fenceVal n 2] := by
  intro n
  induction n with
  | zero =>
    refine ⟨rfl, rfl, rfl, ?_⟩
    simp [runFrames, streamInit, fenceVal]
  | succ n ih =>
    obtain ⟨hcf, hfn, hsz, hfences⟩ := ih
    have h3 : n % 3 = 0 ∨ n % 3 = 1 ∨ n % 3 = 2 := by omega
    simp only [runFrames, bufferStreamBeginFrame, bufferStreamEndFrame,
      hcf, hfn, hsz, hfences]
    rcases h3 with hm | hm | hm <;>
      rw [hm] <;>
      refine ⟨by omega, by trivial, by trivial, ?_⟩ <;>
      · simp only [List.set]
        norm_num
        refine ⟨?_, ?_, ?_⟩ <;>
          · simp only [fenceVal]
            split_ifs <;> first | rfl | omega | (exfalso; omega) | (congr 1; omega)

-- ============================================================================
-- Claim theorems: streaming ring
-- ============================================================================

/-- C4 (amended): at frame `f`, `bufferStreamBeginFrame` selects slice
`f mod 3` — `streamAlloc` then hands out offsets from
`(f mod 3) * frameSize` — but the fence it examines and waits on is the
one at index `(f + 1) mod 3`, recorded by `bufferStreamEndFrame` of frame
`f - 2` (two frames earlier, guarding the slice that will be reused next
frame), not the fence of the slice handed out: the two indices always
differ. -/
theorem stream_begin_frame_fence (streamSize f : Nat) :
    ((bufferStreamBeginFrame (runFrames streamSize f)).2.2.streamOffset =
      (f % 3) * (streamSize / 3)) ∧
    ((bufferStreamBeginFrame (runFrames streamSize f)).2.2.currentFrame = f % 3) ∧
    ((bufferStreamBeginFrame (runFrames streamSize f)).1 = (f + 1) % 3) ∧
    (2 ≤ f → (bufferStreamBeginFrame (runFrames streamSize f)).2.1 = some (f - 2)) ∧
    ((bufferStreamBeginFrame (runFrames streamSize f)).1 ≠ f % 3) ∧
    (∀ sz : Nat, alignSize sz BUFFER_ALIGNMENT ≤ streamSize / 3 →
      (bufferStreamAlloc (bufferStreamBeginFrame (runFrames streamSize f)).2.2 sz).1 =
        (f % 3) * (streamSize / 3)) := by
  obtain ⟨hcf, hfn, hsz, hfences⟩ := runFrames_inv streamSize f
  simp only [bufferStreamBeginFrame, bufferStreamAlloc, hcf, hfn, hsz, hfences]
  refine ⟨by trivial, by trivial, by omega, ?_, by omega, ?_⟩
  · intro hf
    have hidx : (f % 3 + 1) % 3 = (f - 2) % 3 := by omega
    rw [hidx]
    have h2 : (f - 2) % 3 = 0 ∨ (f - 2) % 3 = 1 ∨ (f - 2) % 3 = 2 := by omega
    rcases h2 with h2 | h2 | h2 <;>
      · rw [h2]
        norm_num [fenceVal]
        split_ifs <;> first | rfl | omega | (exfalso; omega) | (congr 1; omega)
  · intro sz hszle
    have hno : ¬((f % 3) * (streamSize / 3) + streamSize / 3 <
        (f % 3) * (streamSize / 3) + alignSize sz BUFFER_ALIGNMENT) :=
      Nat.not_lt.mpr (Nat.add_le_add_left hszle _)
    rw [if_neg hno]

/-- C4 (counterexample to the claim as stated): after two complete frames
(`f = 2`, a state where a fence for the examined slot exists), the fence
index examined and waited on by `bufferStreamBeginFrame` is `0` and the
fence found there was recorded at frame `0 = f - 2`, while the slice then
handed out by `bufferStreamAlloc` is slice `2` (offset 512 of a 768-byte
ring): the slice waited on is not the slice handed out, and the fence is
from 2 frames ago, not 3. -/
theorem stream_begin_frame_fence_counterexample :
    (bufferStreamBeginFrame (runFrames 768 2)).1 = 0 ∧
    (bufferStreamBeginFrame (runFrames 768 2)).2.1 = some 0 ∧
    (bufferStreamBeginFrame (runFrames 768 2)).2.2.currentFrame = 2 ∧
    (bufferStreamBeginFrame (runFrames 768 2)).2.2.streamOffset = 512 ∧
    (bufferStreamAlloc (bufferStreamBeginFrame (runFrames 768 2)).2.2 16).1 = 512 ∧
    (bufferStreamBeginFrame (runFrames 768 2)).1 ≠ 2 := by
  decide

/-- Witness for C4 (amended) at `streamSize = 768`, `f = 2`, `sz = 16`. -/
theorem stream_begin_frame_fence_witness :
    (bufferStreamBeginFrame (runFrames 768 2)).2.1 = some 0 ∧
    (bufferStreamAlloc (bufferStreamBeginFrame (runFrames 768 2)).2.2 16).1 =
      (2 % 3) * (768 / 3) :=
  ⟨(stream_begin_frame_fence 768 2).2.2.2.1 (by decide),
   (stream_begin_frame_fence 768 2).2.2.2.2.2 16 (by decide)⟩

/-- C10 (stream failure sentinel is ambiguous): `bufferStreamAlloc`
returns offset 0 on slice overflow, but in the frame whose slice is slice
0 a successful first allocation also returns offset 0, so a caller cannot
distinguish success from failure by the return value alone.  Witnessed by
a 768-byte ring at frame 0: a 16-byte allocation succeeds (it advances the
bump offset) and returns 0, and the next allocation overflows the slice,
leaves the state unchanged, and also returns 0. -/
theorem stream_alloc_zero_ambiguous :
    ∃ (s : StreamState) (sz1 sz2 : Nat),
      s.currentFrame = 0 ∧
      (bufferStreamAlloc s sz1).1 = 0 ∧
      (bufferStreamAlloc s sz1).2.streamOffset ≠ s.streamOffset ∧
      (bufferStreamAlloc (bufferStreamAlloc s sz1).2 sz2).1 = 0 ∧
      (bufferStreamAlloc (bufferStreamAlloc s sz1).2 sz2).2 =
        (bufferStreamAlloc s sz1).2 := by
  refine ⟨streamInit 768, 16, 16, ?_⟩
  decide

-- ============================================================================
-- Draw batcher (draw_batcher.c / draw_batcher.h)
-- ============================================================================

/-- `DrawCommandType` from `draw_batcher.h` (the four submitted variants;
the multi-draw/indirect constructors are never built by the submit
paths). -/
inductive DrawCommandType where
  | arrays
  | elements
  | arraysInstanced
  | elementsInstanced
deriving Repr, DecidableEq

/-- `BatchKey` from `draw_batcher.h`: everything that must match for two
draws to be batchable.  GL handles and enums are numbers. -/
structure BatchKey where
  program : Nat
  vao : Nat
  texture0 : Nat
  texture1 : Nat
  mode : Nat
  stateHash : Nat
deriving Repr, DecidableEq

/-- `DrawCommand` from `draw_batcher.h` (the fields read by batching and
execution; `indexType`/`indices`/vertex-staging pointers only feed the GL
call itself). -/
structure DrawCommand where
  type : DrawCommandType
  mode : Nat
  first : Nat
  count : Nat
  instanceCount : Nat
  key : BatchKey
  canBatch : Bool
deriving Repr, DecidableEq

/-- `BatchedDraw` from `draw_batcher.h` (key, run length, kind). -/
structure BatchedDraw where
  key : BatchKey
  commandCount : Nat
  isElements : Bool
deriving Repr, DecidableEq

/-- `DrawBatcherContext` from `draw_batcher.h` (command queue, per-frame
counters and configuration; GL buffer handles dropped). -/
structure DrawBatcherContext where
  commands : List DrawCommand
  maxCommands : Nat
  maxBatches : Nat
  drawCallsSubmitted : Nat
  drawCallsExecuted : Nat
  drawCallsSaved : Nat
  batchesCreated : Nat
  enableBatching : Bool
  enableInstancing : Bool
  minBatchSize : Nat
deriving Repr, DecidableEq

/-- 2^64, the modulus of the C `uint64_t` hash arithmetic. -/
def U64 : Nat := 2 ^ 64

/-- `hashBatchKey` from `draw_batcher.c`: FNV-1a over the key fields
(xor then multiply by the 64-bit FNV prime, wrapping mod 2^64; the final
`stateHash` is xored without a trailing multiply). -/
def hashBatchKey (k : BatchKey) : Nat :=
  let p : Nat := 1099511628211
  let h0 : Nat := 14695981039346656037
  let h1 := ((h0 ^^^ k.program) * p) % U64
  let h2 := ((h1 ^^^ k.vao) * p) % U64
  let h3 := ((h2 ^^^ k.texture0) * p) % U64
  let h4 := ((h3 ^^^ k.texture1) * p) % U64
  let h5 := ((h4 ^^^ k.mode) * p) % U64
  h5 ^^^ k.stateHash

/-- `drawBatcherInit` from `draw_batcher.c`: empty queue,
`maxBatches = maxCommands / 4`, batching and instancing enabled,
`minBatchSize = 2` (a non-positive `maxCommands` falls back to
`MAX_BATCH_COMMANDS = 1024`). -/
def drawBatcherInit (maxCommands : Nat) : DrawBatcherContext :=
  let mc := if maxCommands = 0 then 1024 else maxCommands
  { commands := []
    maxCommands := mc
    maxBatches := mc / 4
    drawCallsSubmitted := 0
    drawCallsExecuted := 0
    drawCallsSaved := 0
    batchesCreated := 0
    enableBatching := true
    enableInstancing := true
    minBatchSize := 2 }

/-- `drawBatcherBeginFrame`: reset the queue and the per-frame counters. -/
def drawBatcherBeginFrame (s : DrawBatcherContext) : DrawBatcherContext :=
  { s with
      commands := []
      drawCallsSubmitted := 0
      drawCallsExecuted := 0
      drawCallsSaved := 0
      batchesCreated := 0 }

/-- Insertion of one command into a hash-sorted list.  The C sorts with
`qsort` under `compareBatchKeys` (comparison of `hashBatchKey` values
only); the order of commands with equal hashes is unspecified there, and
this model fixes the stable order.  The claims settled below do not
depend on that tie order: their command buffers contain identical
commands, which every hash-ordered permutation maps to the same list. -/
def sortInsert (c : DrawCommand) : List DrawCommand → List DrawCommand
  | [] => [c]
  | d :: rest =>
    if hashBatchKey c.key ≤ hashBatchKey d.key then c :: d :: rest
    else d :: sortInsert c rest

/-- The `qsort` call in `buildBatches`, as a stable insertion sort by
`hashBatchKey`. -/
def sortCommands (l : List DrawCommand) : List DrawCommand :=
  l.foldr sortInsert []

/-- The inner scan of `buildBatches`: number of further consecutive
commands sharing the head command's key (`batchKeysEqual`, i.e. equality
of every field) and type. -/
def countRun (c : DrawCommand) : List DrawCommand → Nat
  | [] => 0
  | d :: rest =>
    if c.key = d.key ∧ c.type = d.type then 1 + countRun c rest else 0

/-- The outer scan of `buildBatches`, with explicit fuel (each step
consumes at least the run head, so `l.length` steps always suffice). -/
def buildRunsGo : Nat → List DrawCommand → List (DrawCommand × Nat)
  | 0, _ => []
  | _, [] => []
  | fuel + 1, c :: rest =>
    let n := countRun c rest
    (c, 1 + n) :: buildRunsGo fuel (rest.drop n)

/-- The outer scan of `buildBatches`: maximal runs of consecutive
commands with equal `{key, type}`, as (head command, run length) pairs. -/
def buildRuns (l : List DrawCommand) : List (DrawCommand × Nat) :=
  buildRunsGo l.length l

/-- `buildBatches` from `draw_batcher.c`: sort when batching is enabled,
then record one `BatchedDraw` per run, capped at `maxBatches` (runs past
the cap are scanned but not recorded — and hence never executed by
`drawBatcherFlush`). -/
def flushBatches (s : DrawBatcherContext) : List BatchedDraw :=
  let sorted := if s.enableBatching = true then sortCommands s.commands
                else s.commands
  ((buildRuns sorted).take s.maxBatches).map fun rc =>
    { key := rc.1.key
      commandCount := rc.2
      isElements := decide (rc.1.type = .elements ∨ rc.1.type = .elementsInstanced) }

/-- Counter effect of executing one batch in `drawBatcherFlush`
(pair = (executed, saved)): a run of length ≥ `minBatchSize` goes through
`executeMultiDraw`, which still issues each command individually
(`executed` grows by the run length) and then credits `saved` with
`count - 1`; shorter runs go through per-command `executeDirect`. -/
def execBatch (minBatchSize : Nat) (enableBatching : Bool)
    (counters : Nat × Nat) (b : BatchedDraw) : Nat × Nat :=
  if minBatchSize ≤ b.commandCount ∧ enableBatching = true then
    (counters.1 + b.commandCount,
     if 1 < b.commandCount then counters.2 + (b.commandCount - 1) else counters.2)
  else
    (counters.1 + b.commandCount, counters.2)

/-- `drawBatcherFlush` from `draw_batcher.c`: build batches, execute them
(per-command under the hood), update the counters, clear the queue.  An
empty queue returns immediately. -/
def drawBatcherFlush (s : DrawBatcherContext) : DrawBatcherContext :=
  if s.commands = [] then s
  else
    let batches := flushBatches s
    let counters := batches.foldl (execBatch s.minBatchSize s.enableBatching)
      (s.drawCallsExecuted, s.drawCallsSaved)
    { s with
        commands := []
        drawCallsExecuted := counters.1
        drawCallsSaved := counters.2
        batchesCreated := s.batchesCreated + batches.length }

/-- `drawBatcherSubmit` from `draw_batcher.c`: flush first when the queue
is full, then append and count the submission. -/
def drawBatcherSubmit (s : DrawBatcherContext) (cmd : DrawCommand) :
    DrawBatcherContext :=
  let s1 := if s.maxCommands ≤ s.commands.length then drawBatcherFlush s else s
  { s1 with
      commands := s1.commands ++ [cmd]
      drawCallsSubmitted := s1.drawCallsSubmitted + 1 }

/-- `drawBatcherDrawArrays`: a batchable arrays command under the current
key (the key's `mode` field is overwritten with the draw's mode); the
current key `g_currentKey` is passed explicitly. -/
def drawBatcherDrawArrays (s : DrawBatcherContext) (key : BatchKey)
    (mode first count : Nat) : DrawBatcherContext :=
  drawBatcherSubmit s
    { type := .arrays
      mode := mode
      first := first
      count := count
      instanceCount := 1
      key := { key with mode := mode }
      canBatch := s.enableBatching }

/-- `drawBatcherDrawArraysInstanced`: an already-instanced command; its
`canBatch` flag is set to `false` ("Already instanced"). -/
def drawBatcherDrawArraysInstanced (s : DrawBatcherContext) (key : BatchKey)
    (mode first count instanceCount : Nat) : DrawBatcherContext :=
  drawBatcherSubmit s
    { type := .arraysInstanced
      mode := mode
      first := first
      count := count
      instanceCount := instanceCount
      key := { key with mode := mode }
      canBatch := false }

-- ----------------------------------------------------------------------------
-- Counter lemmas for flush
-- ----------------------------------------------------------------------------

theorem execBatch_foldl_executed (m : Nat) (e : Bool) :
    ∀ (bs : List BatchedDraw) (c : Nat × Nat),
      (bs.foldl (execBatch m e) c).1 = c.1 + (bs.map (·.commandCount)).sum := by
  intro bs
  induction bs with
  | nil => intro c; simp
  | cons b rest ih =>
    intro c
    rw [List.foldl_cons, ih]
    simp only [execBatch, List.map_cons, List.sum_cons]
    split_ifs <;> simp <;> omega

theorem execBatch_foldl_saved (m : Nat) (e : Bool) :
    ∀ (bs : List BatchedDraw) (c : Nat × Nat),
      (bs.foldl (execBatch m e) c).2 = c.2 +
        (bs.map (fun b => if m ≤ b.commandCount ∧ e = true ∧ 1 < b.commandCount
          then b.commandCount - 1 else 0)).sum := by
  intro bs
  induction bs with
  | nil => intro c; simp
  | cons b rest ih =>
    intro c
    rw [List.foldl_cons, ih]
    simp only [execBatch, List.map_cons, List.sum_cons]
    by_cases h1 : m ≤ b.commandCount ∧ e = true
    · rw [if_pos h1]
      by_cases h2 : 1 < b.commandCount
      · rw [if_pos h2, if_pos ⟨h1.1, h1.2, h2⟩]
        simp only
        omega
      · rw [if_neg h2, if_neg (by tauto)]
        simp only
        omega
    · rw [if_neg h1, if_neg (by tauto)]
      simp only
      omega

-- ----------------------------------------------------------------------------
-- C7 / C8 scenarios
-- ----------------------------------------------------------------------------

/-- The shared batch key of the C7/C8 scenarios (program 7, vao 3,
texture0 5, texture1 0, `GL_TRIANGLES` = 4, state hash 99). -/
def c7Key : BatchKey := ⟨7, 3, 5, 0, 4, 99⟩

/-- Five `drawBatcherDrawArrays` submissions sharing `c7Key` on a fresh
frame of a freshly initialized batcher (`minBatchSize = 2`). -/
def c7Submit5 : DrawBatcherContext :=
  drawBatcherDrawArrays
    (drawBatcherDrawArrays
      (drawBatcherDrawArrays
        (drawBatcherDrawArrays
          (drawBatcherDrawArrays
            (drawBatcherBeginFrame (drawBatcherInit 1024)) c7Key 4 0 3)
          c7Key 4 0 3)
        c7Key 4 0 3)
      c7Key 4 0 3)
    c7Key 4 0 3

def c7Flush : DrawBatcherContext := drawBatcherFlush c7Submit5

/-- C7 (counterexample to the claim as stated): submitting 5 draw
commands sharing one `BatchKey` with `minBatchSize = 2` and flushing
yields `saved = 4` but `executed = 5`, not 1 — `executeMultiDraw` issues
every command of a merged batch individually and counts each — so
`saved = submitted - executed` fails (4 ≠ 5 − 5). -/
theorem flush_counters_counterexample :
    c7Flush.drawCallsSubmitted = 5 ∧
    c7Flush.drawCallsExecuted = 5 ∧
    c7Flush.drawCallsSaved = 4 ∧
    c7Flush.drawCallsExecuted ≠ 1 ∧
    c7Flush.drawCallsSaved ≠
      c7Flush.drawCallsSubmitted - c7Flush.drawCallsExecuted := by
  decide

/-- C7 (amended): a flush leaves `submitted` unchanged, increases
`executed` by the total command count of the recorded batches (each
command of a merged batch is still executed individually), and increases
`saved` by `count - 1` for every batch that goes through the multi-draw
path (`count ≥ minBatchSize`, batching enabled, `count > 1`); in the
5-command scenario the flush produces one batch and ends with
`submitted = 5`, `executed = 5`, `saved = 4`. -/
theorem flush_counters :
    (∀ s : DrawBatcherContext,
      (drawBatcherFlush s).drawCallsSubmitted = s.drawCallsSubmitted ∧
      (drawBatcherFlush s).drawCallsExecuted = s.drawCallsExecuted +
        ((flushBatches s).map (·.commandCount)).sum ∧
      (drawBatcherFlush s).drawCallsSaved = s.drawCallsSaved +
        ((flushBatches s).map (fun b =>
          if s.minBatchSize ≤ b.commandCount ∧ s.enableBatching = true ∧
              1 < b.commandCount
          then b.commandCount - 1 else 0)).sum) ∧
    (c7Flush.drawCallsSubmitted = 5 ∧ c7Flush.drawCallsExecuted = 5 ∧
      c7Flush.drawCallsSaved = 4 ∧ c7Flush.batchesCreated = 1) := by
  constructor
  · intro s
    by_cases hempty : s.commands = []
    · have hbatches : flushBatches s = [] := by
        simp [flushBatches, hempty, sortCommands, buildRuns, buildRunsGo]
      rw [drawBatcherFlush, if_pos hempty, hbatches]
      simp
    · rw [drawBatcherFlush, if_neg hempty]
      refine ⟨rfl, ?_, ?_⟩
      · exact execBatch_foldl_executed _ _ _ _
      · exact execBatch_foldl_saved _ _ _ _
  · decide

/-- C8 scenario: two identical already-instanced submissions
(`drawBatcherDrawArraysInstanced`, `canBatch = false`) on a fresh
frame. -/
def c8Submit2 : DrawBatcherContext :=
  drawBatcherDrawArraysInstanced
    (drawBatcherDrawArraysInstanced
      (drawBatcherBeginFrame (drawBatcherInit 1024)) c7Key 4 0 3 10)
    c7Key 4 0 3 10

def c8Flush : DrawBatcherContext := drawBatcherFlush c8Submit2

/-- C8 (the code at the failing input): both queued commands are
instanced with `canBatch = false`, yet `buildBatches` never consults
`canBatch` — the flush merges them into one batch of run length 2
(≥ `minBatchSize`), executes it through the multi-draw path and
increments `saved`, contradicting the claim that instanced commands are
never merged and never credited as saved. -/
theorem instanced_commands_merged :
    (c8Submit2.commands.all fun c =>
      decide (c.canBatch = false ∧ c.type = DrawCommandType.arraysInstanced)) = true ∧
    flushBatches c8Submit2 =
      [{ key := { c7Key with mode := 4 }, commandCount := 2,
         isElements := false }] ∧
    c8Submit2.minBatchSize ≤ 2 ∧
    c8Submit2.enableBatching = true ∧
    c8Flush.drawCallsSaved = 1 ∧
    c8Flush.drawCallsExecuted = 2 ∧
    c8Flush.batchesCreated = 1 := by
  decide

-- ============================================================================
-- Shader binary cache (shader_cache.c / shader_cache.h)
-- ============================================================================

/-- `MAX_CACHED_PROGRAMS` from `shader_cache.h` (the slot-table size the
C always uses; the table size is a parameter of `shaderCacheInit` below
so capacity scenarios can be stated for any C). -/
def MAX_CACHED_PROGRAMS : Nat := 256

def SHADER_CACHE_MAGIC : Nat := 0x56454C53

def SHADER_CACHE_VERSION : Nat := 1

/-- `MemoryCacheEntry` from `shader_cache.h`.  `present` models
`binaryData != NULL`; `programId` and `dirty` do not affect lookup,
storage or eviction. -/
structure MemoryCacheEntry where
  hash : Nat
  binarySize : Nat
  binaryFormat : Nat
  hitCount : Nat
  lastUsed : Nat
  present : Bool
deriving Repr, DecidableEq

/-- A zeroed slot (`memset(entry, 0, ...)`). -/
def emptyEntry : MemoryCacheEntry := ⟨0, 0, 0, 0, 0, false⟩

/-- `ShaderCacheContext` from `shader_cache.h` (configuration, the
fixed-size slot table, counters, and the GPU fingerprint used for disk
validation). -/
structure ShaderCacheContext where
  maxCacheSize : Nat
  entries : List MemoryCacheEntry
  entryCount : Nat
  maxEntries : Nat
  hits : Nat
  misses : Nat
  totalSize : Nat
  gpuVendorHash : Nat
  driverVersionHash : Nat
deriving Repr, DecidableEq

/-- `shaderCacheInit` (in-memory part): zeroed table of `maxEntries`
slots; a zero `maxSize` falls back to the 64 MB default.  The C passes
`MAX_CACHED_PROGRAMS` for `maxEntries`.  `getCurrentTime` values are
passed to the operations below as explicit, strictly increasing
timestamps. -/
def shaderCacheInit (maxSize maxEntries vendorHash driverHash : Nat) :
    ShaderCacheContext :=
  { maxCacheSize := if maxSize = 0 then 64 * 1024 * 1024 else maxSize
    entries := List.replicate maxEntries emptyEntry
    entryCount := 0
    maxEntries := maxEntries
    hits := 0
    misses := 0
    totalSize := 0
    gpuVendorHash := vendorHash
    driverVersionHash := driverHash }

/-- The scan of `shaderCacheFindEntry`: first slot index below
`entryCount` whose hash matches. -/
def findEntryGo (hash : Nat) : List MemoryCacheEntry → Nat → Option Nat
  | [], _ => none
  | e :: rest, i =>
    if e.hash = hash then some i else findEntryGo hash rest (i + 1)

/-- `shaderCacheFindEntry` from `shader_cache.c` (scans `i < entryCount`
only). -/
def shaderCacheFindEntry (s : ShaderCacheContext) (hash : Nat) : Option Nat :=
  findEntryGo hash (s.entries.take s.entryCount) 0

/-- The LRU scan of `shaderCacheEvict`: over all slots, the first index
whose entry is occupied (`hash != 0`) and strictly improves on the
oldest `lastUsed` seen so far (initialized to `UINT64_MAX`). -/
def lruScanGo : List MemoryCacheEntry → Nat → Option (Nat × Nat) → Option (Nat × Nat)
  | [], _, best => best
  | e :: rest, i, best =>
    if e.hash ≠ 0 ∧ e.lastUsed < (best.map (·.2)).getD (2 ^ 64 - 1) then
      lruScanGo rest (i + 1) (some (i, e.lastUsed))
    else lruScanGo rest (i + 1) best

/-- The eviction loop of `shaderCacheEvict`: while the byte budget is
still exceeded and `entryCount > 0`, clear the least-recently-used
occupied slot; stop when no occupied slot is left.  (The loop never
re-examines `entryCount`, which the C never decrements, and — note —
never considers the slot-capacity condition.)  Fuel: each iteration
clears one occupied slot, so the slot count bounds the iterations. -/
def shaderCacheEvictLoop (bytesNeeded : Nat) :
    Nat → ShaderCacheContext → ShaderCacheContext
  | 0, s => s
  | fuel + 1, s =>
    if s.maxCacheSize < s.totalSize + bytesNeeded ∧ 0 < s.entryCount then
      match lruScanGo s.entries 0 none with
      | none => s
      | some (i, _) =>
        let e := (s.entries[i]?).getD emptyEntry
        shaderCacheEvictLoop bytesNeeded fuel
          { s with
              entries := s.entries.set i emptyEntry
              totalSize := s.totalSize - e.binarySize }
    else s

/-- `shaderCacheEvict` from `shader_cache.c`. -/
def shaderCacheEvict (s : ShaderCacheContext) (bytesNeeded : Nat) :
    ShaderCacheContext :=
  shaderCacheEvictLoop bytesNeeded s.entries.length s

/-- The free-slot scan of `shaderCacheStoreProgram`: first slot (over all
`maxEntries` slots) with hash 0. -/
def freeSlotGo : List MemoryCacheEntry → Nat → Option Nat
  | [], _ => none
  | e :: rest, i =>
    if e.hash = 0 then some i else freeSlotGo rest (i + 1)

/-- `shaderCacheStoreProgram` from `shader_cache.c`: no-op when the hash
is already cached; evict when the byte budget would be exceeded or the
slot table is at capacity; then store into the first free slot — or
silently discard the binary when no slot is free ("No free cache
slots").  `hash` and `length` stand for the program's source hash and
the driver binary's size; `t` is the `getCurrentTime` value. -/
def shaderCacheStoreProgram (s : ShaderCacheContext)
    (hash length t : Nat) : ShaderCacheContext :=
  if hash = 0 then s
  else
    match shaderCacheFindEntry s hash with
    | some _ => s
    | none =>
      let s1 :=
        if s.maxCacheSize < s.totalSize + length ∨ s.maxEntries ≤ s.entryCount
        then shaderCacheEvict s length else s
      match freeSlotGo s1.entries 0 with
      | none => s1
      | some slot =>
        { s1 with
            entries := s1.entries.set slot
              { hash := hash, binarySize := length, binaryFormat := 0
                hitCount := 0, lastUsed := t, present := true }
            totalSize := s1.totalSize + length
            entryCount := if s1.entryCount ≤ slot then slot + 1 else s1.entryCount }

/-- `shaderCacheGetProgram` from `shader_cache.c`: look the hash up; a
missing or binary-less entry is a miss; a found binary that fails to
re-link (`linkOk = false`, the environment's answer to
`shaderCacheCreateProgramFromBinary`) is purged and reported as a miss;
otherwise the entry's `hitCount`/`lastUsed` are updated and it is a
hit. -/
def shaderCacheGetProgram (s : ShaderCacheContext) (hash : Nat)
    (linkOk : Bool) (t : Nat) : Bool × ShaderCacheContext :=
  match shaderCacheFindEntry s hash with
  | none => (false, { s with misses := s.misses + 1 })
  | some i =>
    let e := (s.entries[i]?).getD emptyEntry
    if e.present = false then (false, { s with misses := s.misses + 1 })
    else if linkOk = false then
      (false,
       { s with
          entries := s.entries.set i { e with present := false, hash := 0 }
          misses := s.misses + 1 })
    else
      (true,
       { s with
          entries := s.entries.set i
            { e with hitCount := e.hitCount + 1, lastUsed := t }
          hits := s.hits + 1 })

-- ----------------------------------------------------------------------------
-- C5 scenario: capacity 2, distinct entries A (hash 1), B (2), C (3)
-- ----------------------------------------------------------------------------

/-- Slot capacity 2, byte budget far from exhausted. -/
def c5Slots : ShaderCacheContext := shaderCacheInit 1000000 2 111 222

def c5SlotsFull : ShaderCacheContext :=
  shaderCacheStoreProgram (shaderCacheStoreProgram c5Slots 1 100 10) 2 100 11

/-- Touch A via get (protecting it), then insert C. -/
def c5SlotsAfter : ShaderCacheContext :=
  shaderCacheStoreProgram
    ((shaderCacheGetProgram c5SlotsFull 1 true 12).2) 3 100 13

/-- Same sequence under a byte budget of 250, which the third insertion
exceeds. -/
def c5Bytes : ShaderCacheContext := shaderCacheInit 250 4 111 222

def c5BytesAfter : ShaderCacheContext :=
  shaderCacheStoreProgram
    ((shaderCacheGetProgram
      (shaderCacheStoreProgram (shaderCacheStoreProgram c5Bytes 1 100 10) 2 100 11)
      1 true 12).2) 3 100 13

/-- C5 (the code at the failing input): with slot capacity 2 and an
ample byte budget, inserting the third distinct entry evicts nothing and
silently discards the new entry — the eviction loop only tests the byte
condition, so the `shaderCacheEvict` call made for the slot-capacity
case does no work and no free slot appears.  (When the *byte* budget
drives the eviction — byte budget 250, third conjunct block — the
least-recently-used entry B is evicted and C is stored, which is the
behaviour the claim describes.) -/
theorem store_capacity_discards_new_entry :
    (shaderCacheFindEntry c5SlotsFull 1).isSome = true ∧
    (shaderCacheFindEntry c5SlotsFull 2).isSome = true ∧
    (shaderCacheFindEntry c5SlotsAfter 3 = none ∧
      (shaderCacheFindEntry c5SlotsAfter 1).isSome = true ∧
      (shaderCacheFindEntry c5SlotsAfter 2).isSome = true ∧
      c5SlotsAfter.totalSize = 200 ∧
      c5SlotsAfter = (shaderCacheGetProgram c5SlotsFull 1 true 12).2) ∧
    ((shaderCacheFindEntry c5BytesAfter 3).isSome = true ∧
      (shaderCacheFindEntry c5BytesAfter 1).isSome = true ∧
      shaderCacheFindEntry c5BytesAfter 2 = none ∧
      c5BytesAfter.totalSize = 200) := by
  decide

-- ----------------------------------------------------------------------------
-- C6: disk-cache header validation
-- ----------------------------------------------------------------------------

/-- `ShaderCacheHeader` from `shader_cache.h`. -/
structure ShaderCacheHeader where
  magic : Nat
  version : Nat
  gpuVendorHash : Nat
  driverVersionHash : Nat
  timestamp : Nat
  entryCount : Nat
deriving Repr, DecidableEq

/-- `ShaderCacheEntry` from `shader_cache.h` (the on-disk record; the
`dataOffset`/`isProgram`/`shaderTypes` fields locate the payload, which
the file model supplies with the record). -/
structure ShaderCacheDiskEntry where
  sourceHash : Nat
  binaryFormat : Nat
  binarySize : Nat
deriving Repr, DecidableEq

/-- `shaderCacheLoadFromDisk` from `shader_cache.c`, with the file
contents passed as a value (`none` = no readable file).  The header is
rejected when the magic, the version, or the GPU-vendor hash mismatches
— the `driverVersionHash` field is not examined.  On acceptance, up to
`min entryCount maxEntries` records are appended to the memory cache at
`entryCount`, stamped with the load time `t`. -/
def shaderCacheLoadFromDisk (s : ShaderCacheContext)
    (file : Option (ShaderCacheHeader × List ShaderCacheDiskEntry))
    (t : Nat) : Bool × ShaderCacheContext :=
  match file with
  | none => (false, s)
  | some (h, es) =>
    if h.magic ≠ SHADER_CACHE_MAGIC ∨ h.version ≠ SHADER_CACHE_VERSION ∨
        h.gpuVendorHash ≠ s.gpuVendorHash then
      (false, s)
    else
      (true,
       (es.take (min h.entryCount s.maxEntries)).foldl (fun acc e =>
         { acc with
            entries := acc.entries.set acc.entryCount
              { hash := e.sourceHash, binarySize := e.binarySize
                binaryFormat := e.binaryFormat, hitCount := 0
                lastUsed := t, present := true }
            totalSize := acc.totalSize + e.binarySize
            entryCount := acc.entryCount + 1 }) s)

/-- A cache whose runtime fingerprint is vendor hash 111, driver hash
222. -/
def c6Cache : ShaderCacheContext := shaderCacheInit 1000000 4 111 222

/-- A file whose header matches on magic, version and vendor but not on
the driver-version hash (999 ≠ 222), carrying one entry. -/
def c6BadDriverFile : ShaderCacheHeader × List ShaderCacheDiskEntry :=
  (⟨SHADER_CACHE_MAGIC, SHADER_CACHE_VERSION, 111, 999, 5, 1⟩,
   [⟨77, 1, 100⟩])

/-- C6 (the code at the failing input): `shaderCacheLoadFromDisk` does
refuse on a magic, version, or vendor-hash mismatch (leaving the cache
cold and returning `false` rather than failing), but it accepts a file
whose `driverVersionHash` differs from the runtime's and loads its
entries — the driver hash is never compared, contradicting the claim
that any of the four mismatches causes a wholesale refusal. -/
theorem load_ignores_driver_hash :
    (shaderCacheLoadFromDisk c6Cache
        (some (⟨0xBAD, SHADER_CACHE_VERSION, 111, 222, 5, 1⟩, [⟨77, 1, 100⟩])) 20 =
      (false, c6Cache)) ∧
    (shaderCacheLoadFromDisk c6Cache
        (some (⟨SHADER_CACHE_MAGIC, 2, 111, 222, 5, 1⟩, [⟨77, 1, 100⟩])) 20 =
      (false, c6Cache)) ∧
    (shaderCacheLoadFromDisk c6Cache
        (some (⟨SHADER_CACHE_MAGIC, SHADER_CACHE_VERSION, 333, 222, 5, 1⟩,
          [⟨77, 1, 100⟩])) 20 =
      (false, c6Cache)) ∧
    c6BadDriverFile.1.driverVersionHash ≠ c6Cache.driverVersionHash ∧
    (shaderCacheLoadFromDisk c6Cache (some c6BadDriverFile) 20).1 = true ∧
    (shaderCacheLoadFromDisk c6Cache (some c6BadDriverFile) 20).2.entryCount = 1 ∧
    (shaderCacheFindEntry
      (shaderCacheLoadFromDisk c6Cache (some c6BadDriverFile) 20).2 77).isSome =
      true := by
  decide

-- ============================================================================
-- Resolution scaler (resolution_scaler.c / resolution_scaler.h)
-- ============================================================================

/-- Constants from `resolution_scaler.h`.  C `float` values are modelled
as rationals; the comparisons and clamps the claims are about are exact
in both arithmetics (and the literals used in the scenarios below are
exactly representable floats). -/
def SCALER_MIN_SCALE : ℚ := 1 / 4

def SCALER_MAX_SCALE : ℚ := 2

def SCALER_HISTORY_SIZE : Nat := 60

def SCALER_ADJUST_THRESHOLD : ℚ := 1 / 10

/-- `ScalerConfig` from `resolution_scaler.h` (`upscaleMethod` does not
influence the scale computation). -/
structure ScalerConfig where
  enabled : Bool
  minScale : ℚ
  maxScale : ℚ
  targetFPS : Nat
  adjustSpeed : ℚ
  sharpening : Bool
  sharpenAmount : ℚ
deriving Repr, DecidableEq

/-- `ResolutionScalerContext` from `resolution_scaler.h` (scale state,
render dimensions and the frame-time ring; GL handles dropped). -/
structure ResolutionScalerContext where
  config : ScalerConfig
  currentScale : ℚ
  nativeWidth : Int
  nativeHeight : Int
  renderWidth : Int
  renderHeight : Int
  frameTimeHistory : List ℚ
  historyIndex : Nat
  avgFrameTime : ℚ
  actualFPS : ℚ
  targetFrameTime : ℚ
  scaleChanges : Nat
deriving Repr, DecidableEq

/-- `updateRenderSize` from `resolution_scaler.c`: truncate
`native * currentScale` to an integer (the C `(int)` cast; all sizes here
are nonnegative, where truncation is the floor), round up to even, clamp
to `[64, 2 * native]` per dimension, and count a scale change when the
integer dimensions actually change.  `currentScale` is never modified
here. -/
def updateRenderSize (s : ResolutionScalerContext) : ResolutionScalerContext :=
  let w0 : Int := ⌊(s.nativeWidth : ℚ) * s.currentScale⌋
  let h0 : Int := ⌊(s.nativeHeight : ℚ) * s.currentScale⌋
  let w1 : Int := (w0 + 1) - (w0 + 1) % 2
  let h1 : Int := (h0 + 1) - (h0 + 1) % 2
  let w2 : Int := if w1 < 64 then 64 else w1
  let h2 : Int := if h1 < 64 then 64 else h1
  let w3 : Int := if s.nativeWidth * 2 < w2 then s.nativeWidth * 2 else w2
  let h3 : Int := if s.nativeHeight * 2 < h2 then s.nativeHeight * 2 else h2
  if w3 ≠ s.renderWidth ∨ h3 ≠ s.renderHeight then
    { s with
        renderWidth := w3
        renderHeight := h3
        scaleChanges := s.scaleChanges + 1 }
  else s

/-- `resolutionScalerInit` from `resolution_scaler.c` (with an explicit
config, the non-NULL branch): start at `maxScale`, zeroed frame-time
history, `targetFrameTime = 1000 / targetFPS`. -/
def resolutionScalerInit (nativeWidth nativeHeight : Int)
    (config : ScalerConfig) : ResolutionScalerContext :=
  { config := config
    currentScale := config.maxScale
    nativeWidth := nativeWidth
    nativeHeight := nativeHeight
    renderWidth := ⌊(nativeWidth : ℚ) * config.maxScale⌋
    renderHeight := ⌊(nativeHeight : ℚ) * config.maxScale⌋
    frameTimeHistory := List.replicate SCALER_HISTORY_SIZE 0
    historyIndex := 0
    avgFrameTime := 0
    actualFPS := 0
    targetFrameTime := 1000 / (config.targetFPS : ℚ)
    scaleChanges := 0 }

/-- `resolutionScalerRecordFrameTime` from `resolution_scaler.c`: push
the sample into the 60-slot ring, recompute the rolling average and FPS,
compute the relative deviation from the target; when `|deviation|`
exceeds the 10% threshold, move the scale by `-deviation * adjustSpeed`,
clamp to `[config.minScale, config.maxScale]`, and adopt the new scale
(reallocating the render target) only when it moves by more than 0.01. -/
def resolutionScalerRecordFrameTime (s : ResolutionScalerContext)
    (frameTimeMs : ℚ) : ResolutionScalerContext :=
  if s.config.enabled = false then s
  else
    let hist := s.frameTimeHistory.set s.historyIndex frameTimeMs
    let avg := hist.sum / (SCALER_HISTORY_SIZE : ℚ)
    let s1 := { s with
        frameTimeHistory := hist
        historyIndex := (s.historyIndex + 1) % SCALER_HISTORY_SIZE
        avgFrameTime := avg
        actualFPS := 1000 / avg }
    let deviation := (avg - s.targetFrameTime) / s.targetFrameTime
    if SCALER_ADJUST_THRESHOLD < |deviation| then
      let adjustment := -deviation * s.config.adjustSpeed
      let newScale0 := s.currentScale + adjustment
      let newScale1 := if newScale0 < s.config.minScale then s.config.minScale
                       else newScale0
      let newScale := if s.config.maxScale < newScale1 then s.config.maxScale
                      else newScale1
      if (1 / 100 : ℚ) < |newScale - s.currentScale| then
        updateRenderSize { s1 with currentScale := newScale }
      else s1
    else s1

/-- `resolutionScalerSetScale` from `resolution_scaler.c`: clamp the
requested scale to the *global* constants `SCALER_MIN_SCALE` /
`SCALER_MAX_SCALE` (not the configured `minScale`/`maxScale`), adopt it,
and resize. -/
def resolutionScalerSetScale (s : ResolutionScalerContext) (scale : ℚ) :
    ResolutionScalerContext :=
  let sc1 := if scale < SCALER_MIN_SCALE then SCALER_MIN_SCALE else scale
  let sc2 := if SCALER_MAX_SCALE < sc1 then SCALER_MAX_SCALE else sc1
  updateRenderSize { s with currentScale := sc2 }

/-- The configured-scale-bounds invariant of C9. -/
def scaleInBounds (s : ResolutionScalerContext) : Prop :=
  s.config.minScale ≤ s.currentScale ∧ s.currentScale ≤ s.config.maxScale

/-- The configuration of the C9 scenario: enabled, scale range
[1/2, 1], 60 FPS target. -/
def c9Config : ScalerConfig :=
  { enabled := true
    minScale := 1 / 2
    maxScale := 1
    targetFPS := 60
    adjustSpeed := 1 / 10
    sharpening := true
    sharpenAmount := 3 / 10 }

def c9Scaler : ResolutionScalerContext := resolutionScalerInit 1920 1080 c9Config

theorem updateRenderSize_currentScale (s : ResolutionScalerContext) :
    (updateRenderSize s).currentScale = s.currentScale := by
  unfold updateRenderSize
  dsimp only
  rw [apply_ite ResolutionScalerContext.currentScale]
  simp

theorem updateRenderSize_config (s : ResolutionScalerContext) :
    (updateRenderSize s).config = s.config := by
  unfold updateRenderSize
  dsimp only
  rw [apply_ite ResolutionScalerContext.config]
  simp

/-- C9 (counterexample to the claim as stated): with configured bounds
`[1/2, 1]`, `resolutionScalerSetScale 3/2` sets `currentScale = 3/2`,
violating `currentScale ≤ maxScale` — `setScale` clamps to the global
constants `[1/4, 2]`, not to the configured bounds, so it does not obey
the same clamping as the feedback loop. -/
theorem setScale_escapes_config_bounds :
    (resolutionScalerSetScale c9Scaler (3 / 2)).currentScale = 3 / 2 ∧
    ¬((resolutionScalerSetScale c9Scaler (3 / 2)).currentScale ≤
        (resolutionScalerSetScale c9Scaler (3 / 2)).config.maxScale) := by
  have h1 : (resolutionScalerSetScale c9Scaler (3 / 2)).currentScale = 3 / 2 := by
    rw [resolutionScalerSetScale, updateRenderSize_currentScale]
    norm_num [SCALER_MIN_SCALE, SCALER_MAX_SCALE]
  have h2 : (resolutionScalerSetScale c9Scaler (3 / 2)).config.maxScale = 1 := by
    rw [resolutionScalerSetScale, updateRenderSize_config]
    rfl
  refine ⟨h1, ?_⟩
  rw [h1, h2]
  norm_num

/-- C9 (amended): `resolutionScalerRecordFrameTime` preserves the
configured bounds `minScale ≤ currentScale ≤ maxScale` (provided
`minScale ≤ maxScale`), because its clamp uses the configured bounds;
`resolutionScalerSetScale`, however, clamps to the global constants
`SCALER_MIN_SCALE = 1/4` and `SCALER_MAX_SCALE = 2` instead, so after
any number of calls only `1/4 ≤ currentScale ≤ 2` is guaranteed, and a
`setScale` call can leave the configured range (see the
counterexample). -/
theorem scale_bounds_amended :
    (∀ (s : ResolutionScalerContext) (t : ℚ),
      s.config.minScale ≤ s.config.maxScale →
      scaleInBounds s →
      scaleInBounds (resolutionScalerRecordFrameTime s t)) ∧
    (∀ (s : ResolutionScalerContext) (x : ℚ),
      SCALER_MIN_SCALE ≤ (resolutionScalerSetScale s x).currentScale ∧
      (resolutionScalerSetScale s x).currentScale ≤ SCALER_MAX_SCALE) := by
  constructor
  · intro s t hminmax hinv
    obtain ⟨hlo, hhi⟩ := hinv
    unfold resolutionScalerRecordFrameTime
    by_cases hen : s.config.enabled = false
    · rw [if_pos hen]; exact ⟨hlo, hhi⟩
    · rw [if_neg hen]
      dsimp only
      split_ifs
      all_goals
        first
          | exact ⟨hlo, hhi⟩
          | (simp only [scaleInBounds, updateRenderSize_currentScale,
               updateRenderSize_config]
             constructor <;> linarith)
  · intro s x
    simp only [resolutionScalerSetScale, updateRenderSize_currentScale]
    simp only [SCALER_MIN_SCALE, SCALER_MAX_SCALE]
    split_ifs <;> constructor <;> linarith

/-- Witness for C9 (amended): the scenario scaler (configured bounds
[1/2, 1], started at 1) keeps its configured bounds across a 33 ms
frame-time sample, and a `setScale 3` lands inside the global range
(clamped to 2). -/
theorem scale_bounds_amended_witness :
    scaleInBounds (resolutionScalerRecordFrameTime c9Scaler 33) ∧
    SCALER_MIN_SCALE ≤ (resolutionScalerSetScale c9Scaler 3).currentScale ∧
    (resolutionScalerSetScale c9Scaler 3).currentScale ≤ SCALER_MAX_SCALE :=
  ⟨scale_bounds_amended.1 c9Scaler 33 (by norm_num [c9Scaler, resolutionScalerInit, c9Config])
      (by constructor <;> norm_num [c9Scaler, resolutionScalerInit, c9Config, scaleInBounds]),
   scale_bounds_amended.2 c9Scaler 3⟩

end VelocityGL
